import Mathlib

/-!
# whats-up-mon: the health-check and state-transition engine

A shallow embedding of `checkHandler`, `validate`, `getServices` and `notify`
from `whatsupmon.go` and of `checkHandler` from `ducksmon.go`, with theorems
about one check cycle.

The external collaborators (App Engine datastore, urlfetch HTTP client,
templates, mail transport) are not part of the repository.  They appear as
an explicit environment `Env`: the registry contents, and for every call the
handler can make, the answer the collaborator gives.  Every effect the
handler performs is appended, in program order, to a trace of `Event`s.
-/

namespace whatsupmon

/-! ## Data model (`whatsupmon.go` lines 23-47, `ducksmon.go` lines 16-26) -/

/-- Stand-in for `*datastore.Key`: an opaque identifier with decidable equality. -/
abbrev Key := Nat

/-- Go `type Service struct`. -/
structure Service where
  Url : String
  HealthString : String
  Up : Bool
  Enabled : Bool
deriving DecidableEq

/-- Go `type ServiceRecord struct`. -/
structure ServiceRecord where
  Service : Service
  Key : Key
deriving DecidableEq

/-- Go `type Address struct`. -/
structure Address where
  Email : String
deriving DecidableEq

/-- Go `type AddressRecord struct`. -/
structure AddressRecord where
  Address : Address
  Key : Key
deriving DecidableEq

/-- Go `type Notification struct`; the zero value has both slices empty. -/
structure Notification where
  Up : List Service
  Down : List Service
deriving DecidableEq

/-! ## The HTTP client as seen by `validate` -/

/-- Result of `ioutil.ReadAll(resp.Body)`. -/
inductive ReadResult where
  | error (cause : String)
  | ok (body : String)
deriving DecidableEq

/-- Result of `client.Get(url)`: a transport error, or a response carrying an
HTTP status code and a body still to be read. -/
inductive GetResult where
  | error (cause : String)
  | response (status : Nat) (body : ReadResult)
deriving DecidableEq

/-- True when `p` is a prefix of `s`, compared element by element. -/
def hasPrefix : List Char → List Char → Bool
  | _, [] => true
  | [], _ :: _ => false
  | c :: s, d :: p => c == d && hasPrefix s p

/-- Naive search behind `strings.Contains`: does `substr` start at some
position of `s`? -/
def containsChars : List Char → List Char → Bool
  | [], substr => hasPrefix [] substr
  | c :: s, substr => hasPrefix (c :: s) substr || containsChars s substr

/-- Go `strings.Contains(s, substr)`: reports whether `substr` is within `s`.
Go compares bytes; here a string is its sequence of characters, which gives the
same answer on well-formed UTF-8 text. -/
def Contains (s substr : String) : Bool :=
  containsChars s.data substr.data

/-- Go `validate` (`whatsupmon.go` 220-237, `ducksmon.go` 167-184).  `client`
answers the single `client.Get(url)`; the result is the returned `error`
(`none` for `nil`). -/
def validate (client : String → GetResult) (url : String) (healthstring : String) :
    Option String :=
  match client url with
  | .error err => some ("Could not access " ++ url ++ ": " ++ err)
  | .response _ rd =>
    match rd with
    | .error err =>
      some ("Could not read the body of the response for " ++ url ++ ": " ++ err)
    | .ok body =>
      if !Contains body healthstring then
        some ("Could not find health string on " ++ url)
      else
        none

/-! ## External collaborators -/

/-- Go `mail.Message`, restricted to the fields `notify` sets. -/
structure Message where
  Sender : String
  To : List String
  Subject : String
  Body : String
deriving DecidableEq

/-- Everything outside the handler that one request depends on.

* `services`: the stored `service` entities under the `services` ancestor, in
  the order the ancestor query lists them;
* `getAllErr`: the error, if any, of `q.GetAll` inside `getServices`;
* `client i url`: what `client.Get(url)` answers during iteration `i` of the
  handler's `range` loop (the network may answer differently over time);
* `putErr i`: the error, if any, of the `datastore.Put` issued in iteration `i`;
* `subjectTempl`, `bodyTempl`: `Execute` of the two notification templates
  (`templates/notifsubject.txt`, `templates/notifbody.txt`);
* `addresses`: the result of `q.GetAll` inside `getAddresses`, keys and
  entities in step;
* `mailSend`: the error, if any, of `mail.Send`. -/
structure Env where
  services : List (Key × Service)
  getAllErr : Option String
  client : Nat → String → GetResult
  putErr : Nat → Option String
  subjectTempl : Notification → Except String String
  bodyTempl : Notification → Except String String
  addresses : Except String (List Key × List Address)
  mailSend : Message → Option String

/-- The effects a handler performs, in program order.  `get i url` is the
`client.Get(url)` issued by the call of `validate` in iteration `i` of the
loop; `put i key src` is the call `datastore.Put(c, key, &src)` in iteration
`i` (the attempt, whatever it returns). -/
inductive Event where
  | get (i : Nat) (url : String)
  | put (i : Nat) (key : Key) (src : Service)
  | infof (msg : String)
  | errorf (msg : String)
  | fprint (text : String)
  | httpError (msg : String) (code : Nat)
  | notify (notification : Notification)
  | mailSend (msg : Message)
deriving DecidableEq

/-- Go `http.StatusInternalServerError`. -/
def StatusInternalServerError : Nat := 500

/-- The datastore's `q.GetAll(c, &services)` for the services query: an error,
or the keys and the entities as two slices of the same length. -/
def GetAll (env : Env) : Except String (List Key × List Service) :=
  match env.getAllErr with
  | some err => .error err
  | none => .ok (env.services.map Prod.fst, env.services.map Prod.snd)

/-- The datastore's `Put` with a complete key: when it fails the store is
unchanged; otherwise the entity stored under `key` is overwritten in place, or
inserted when the key is new. -/
def Put (err : Option String) (store : List (Key × Service)) (key : Key) (src : Service) :
    List (Key × Service) :=
  match err with
  | some _ => store
  | none =>
    if store.any (fun e => e.1 == key) then
      store.map (fun e => if e.1 = key then (key, src) else e)
    else
      store ++ [(key, src)]

/-- Go `getServices` (`whatsupmon.go` 243-263, `ducksmon.go` 190-210), given
the answer of `q.GetAll`: pairs `services[index]` with `keys[index]`. -/
def getServices (q : Except String (List Key × List Service)) :
    Except String (List ServiceRecord) :=
  match q with
  | .error err => .error err
  | .ok (keys, services) =>
    .ok (List.zipWith (fun service key => { Service := service, Key := key }) services keys)

/-- Go `getAddresses` (`whatsupmon.go` 316-336), given the answer of `q.GetAll`. -/
def getAddresses (q : Except String (List Key × List Address)) :
    Except String (List AddressRecord) :=
  match q with
  | .error err => .error err
  | .ok (keys, addresses) =>
    .ok (List.zipWith (fun address key => { Address := address, Key := key }) addresses keys)

/-- Go `notify` (`whatsupmon.go` 265-295): the events it performs and the
returned `error`. -/
def notify (env : Env) (notification : Notification) : List Event × Option String :=
  match env.subjectTempl notification with
  | .error err => ([], some err)
  | .ok subject =>
    match env.bodyTempl notification with
    | .error err => ([], some err)
    | .ok body =>
      match getAddresses env.addresses with
      | .error err => ([], some err)
      | .ok addrRecords =>
        let toAddrs := addrRecords.map (fun address => address.Address.Email)
        let msg : Message :=
          { Sender := "What's Up Mon? <notify@whats-up-mon.appspotmail.com>",
            To := toAddrs,
            Subject := subject,
            Body := body }
        match env.mailSend msg with
        | some err => ([Event.mailSend msg], some err)
        | none => ([Event.mailSend msg], none)

/-! ## The check cycle of `whatsupmon.go` -/

/-- What a handler has done so far: the effects performed, the registry
contents, and the local variable `notification`. -/
structure State where
  trace : List Event
  store : List (Key × Service)
  notification : Notification
deriving DecidableEq

/-- The body of the `for _, serviceRecord := range serviceRecords` loop of
`checkHandler` (`whatsupmon.go` 188-209), at iteration `i`. -/
def checkStep (env : Env) (i : Nat) (serviceRecord : ServiceRecord) (st : State) : State :=
  let service := serviceRecord.Service
  if !service.Enabled then
    st
  else
    let st := { st with trace := st.trace ++ [Event.get i service.Url] }
    match validate (env.client i) service.Url service.HealthString with
    | some err =>
      let st := { st with trace := st.trace ++ [Event.infof err] }
      if service.Up then
        let service := { service with Up := false }
        { trace := st.trace ++ [Event.put i serviceRecord.Key service],
          store := Put (env.putErr i) st.store serviceRecord.Key service,
          notification :=
            { st.notification with Down := st.notification.Down ++ [service] } }
      else
        st
    | none =>
      if !service.Up then
        let service := { service with Up := true }
        { trace := st.trace ++ [Event.put i serviceRecord.Key service],
          store := Put (env.putErr i) st.store serviceRecord.Key service,
          notification :=
            { st.notification with Up := st.notification.Up ++ [service] } }
      else
        st

/-- The `range` loop of `checkHandler`, from iteration `i` on. -/
def checkLoop (env : Env) : Nat → List ServiceRecord → State → State
  | _, [], st => st
  | i, serviceRecord :: rest, st => checkLoop env (i + 1) rest (checkStep env i serviceRecord st)

/-- Go `checkHandler` of `whatsupmon.go` (167-218). -/
def checkHandler (env : Env) : State :=
  match getServices (GetAll env) with
  | .error err =>
    { trace := [Event.httpError err StatusInternalServerError],
      store := env.services,
      notification := { Up := [], Down := [] } }
  | .ok serviceRecords =>
    let st := checkLoop env 0 serviceRecords
      { trace := [], store := env.services, notification := { Up := [], Down := [] } }
    let st :=
      if st.notification.Up.length > 0 || st.notification.Down.length > 0 then
        let st := { st with trace := st.trace ++ [Event.notify st.notification] }
        match notify env st.notification with
        | (events, some err) =>
          { st with trace := st.trace ++ events ++
              [Event.errorf ("Couldn't send notification: " ++ err)] }
        | (events, none) => { st with trace := st.trace ++ events }
      else
        st
    { st with trace := st.trace ++ [Event.infof "Completed Checks."] }

/-! ## Statement vocabulary -/

/-- The snapshot `getServices` hands to the loop when the listing succeeds:
one record per stored entity, in listing order. -/
def snapshot (env : Env) : List ServiceRecord :=
  env.services.map (fun e => { Service := e.2, Key := e.1 })

/-- The outcome of the check of `serviceRecord` in iteration `i`: true for
Healthy (`validate` returns `nil`), false for Unhealthy. -/
def healthy (env : Env) (i : Nat) (serviceRecord : ServiceRecord) : Bool :=
  (validate (env.client i) serviceRecord.Service.Url serviceRecord.Service.HealthString).isNone

/-- The `datastore.Put` calls of a trace, in order. -/
def puts (trace : List Event) : List (Nat × Key × Service) :=
  trace.filterMap (fun e => match e with
    | .put i key src => some (i, key, src)
    | _ => none)

/-- The `client.Get` calls of a trace, in order. -/
def gets (trace : List Event) : List (Nat × String) :=
  trace.filterMap (fun e => match e with
    | .get i url => some (i, url)
    | _ => none)

/-- The arguments of the `notify` calls of a trace, in order. -/
def notifyCalls (trace : List Event) : List Notification :=
  trace.filterMap (fun e => match e with
    | .notify n => some n
    | _ => none)

/-- The `http.Error` calls of a trace: the handler reports failure to its
caller exactly when there is one. -/
def httpErrors (trace : List Event) : List (String × Nat) :=
  trace.filterMap (fun e => match e with
    | .httpError msg code => some (msg, code)
    | _ => none)

/-- What a cycle reports: its log entries (`c.Infof`, `c.Errorf`) and the text
it writes to the response (`fmt.Fprint`, `http.Error`), in order. -/
def reported (trace : List Event) : List Event :=
  trace.filter (fun e => match e with
    | .infof _ => true
    | .errorf _ => true
    | .fprint _ => true
    | .httpError _ _ => true
    | _ => false)

/-! ## Closed forms used in the proofs -/

/-- Does the check of iteration `i` contradict the persisted flag of an
enabled record? -/
def flips (env : Env) (i : Nat) (r : ServiceRecord) : Bool :=
  r.Service.Enabled && (r.Service.Up != healthy env i r)

/-- The service value of `r` with its flag set to the outcome of the check. -/
def flipped (env : Env) (i : Nat) (r : ServiceRecord) : Service :=
  { r.Service with Up := healthy env i r }

/-- The events of iteration `i` on record `r`. -/
def iterEvents (env : Env) (i : Nat) (r : ServiceRecord) : List Event :=
  if r.Service.Enabled then
    Event.get i r.Service.Url ::
      ((match validate (env.client i) r.Service.Url r.Service.HealthString with
        | some err => [Event.infof err]
        | none => []) ++
       (if r.Service.Up != healthy env i r then [Event.put i r.Key (flipped env i r)] else []))
  else
    []

/-- The events of the loop from iteration `i` on. -/
def loopEvents (env : Env) : Nat → List ServiceRecord → List Event
  | _, [] => []
  | i, r :: rs => iterEvents env i r ++ loopEvents env (i + 1) rs

/-- The registry after the loop from iteration `i` on. -/
def loopStore (env : Env) : Nat → List ServiceRecord → List (Key × Service) → List (Key × Service)
  | _, [], store => store
  | i, r :: rs, store =>
    loopStore env (i + 1) rs
      (if flips env i r then Put (env.putErr i) store r.Key (flipped env i r) else store)

/-- The services that go up in the loop from iteration `i` on, as appended. -/
def loopUp (env : Env) (i : Nat) (rs : List ServiceRecord) : List Service :=
  ((rs.enumFrom i).filter
    (fun p => p.2.Service.Enabled && !p.2.Service.Up && healthy env p.1 p.2)).map
    (fun p => { p.2.Service with Up := true })

/-- The services that go down in the loop from iteration `i` on, as appended. -/
def loopDown (env : Env) (i : Nat) (rs : List ServiceRecord) : List Service :=
  ((rs.enumFrom i).filter
    (fun p => p.2.Service.Enabled && p.2.Service.Up && !healthy env p.1 p.2)).map
    (fun p => { p.2.Service with Up := false })

/-- The events of the notification step that follows the loop. -/
def notifyEvents (env : Env) (n : Notification) : List Event :=
  if n.Up.length > 0 || n.Down.length > 0 then
    Event.notify n :: ((notify env n).1 ++
      (match (notify env n).2 with
       | some err => [Event.errorf ("Couldn't send notification: " ++ err)]
       | none => []))
  else
    []

/-- A record as the entity the registry stores for it. -/
def entity (r : ServiceRecord) : Key × Service := (r.Key, r.Service)

end whatsupmon

/-! ## The check cycle of `ducksmon.go`

`ducksmon.go` declares `Service`, `ServiceRecord`, `validate` and
`getServices` with the same text as `whatsupmon.go`; the definitions above
serve both.  Its `checkHandler` keeps no notification and writes each check
error to the response instead of the log. -/

namespace ducksmon

open whatsupmon

/-- What the handler has done so far: the effects performed and the registry
contents. -/
structure State where
  trace : List Event
  store : List (Key × Service)
deriving DecidableEq

/-- The body of the loop of `checkHandler` (`ducksmon.go` 141-162), at
iteration `i`. -/
def checkStep (env : Env) (i : Nat) (serviceRecord : ServiceRecord) (st : State) : State :=
  let service := serviceRecord.Service
  if !service.Enabled then
    st
  else
    let st := { st with trace := st.trace ++ [Event.get i service.Url] }
    match validate (env.client i) service.Url service.HealthString with
    | some err =>
      let st := { st with trace := st.trace ++ [Event.fprint err] }
      if service.Up then
        let service := { service with Up := false }
        { trace := st.trace ++ [Event.put i serviceRecord.Key service],
          store := Put (env.putErr i) st.store serviceRecord.Key service }
      else
        st
    | none =>
      if !service.Up then
        let service := { service with Up := true }
        { trace := st.trace ++ [Event.put i serviceRecord.Key service],
          store := Put (env.putErr i) st.store serviceRecord.Key service }
      else
        st

/-- The `range` loop of `checkHandler`, from iteration `i` on. -/
def checkLoop (env : Env) : Nat → List ServiceRecord → State → State
  | _, [], st => st
  | i, serviceRecord :: rest, st => checkLoop env (i + 1) rest (checkStep env i serviceRecord st)

/-- Go `checkHandler` of `ducksmon.go` (131-165). -/
def checkHandler (env : Env) : State :=
  match getServices (GetAll env) with
  | .error err =>
    { trace := [Event.httpError err StatusInternalServerError], store := env.services }
  | .ok serviceRecords =>
    let st := checkLoop env 0 serviceRecords { trace := [], store := env.services }
    { st with trace := st.trace ++ [Event.fprint "Done!"] }

/-- Where `whatsupmon.go` logs a check error with `c.Infof`, `ducksmon.go`
writes it to the response with `fmt.Fprint`. -/
def respond : Event → Event
  | .infof msg => .fprint msg
  | e => e

end ducksmon

/-! ## Concrete scenarios -/

namespace whatsupmon

/-- A registry of three services: `http://x/health` is recorded down and
answers with the health string (under a 503 status), `http://y` is recorded up
and refuses the connection, `http://z` is disabled.  Every `Put` succeeds;
the mail transport rejects the message. -/
def threeServices : Env :=
  { services :=
      [(1, { Url := "http://x/health", HealthString := "OK", Up := false, Enabled := true }),
       (2, { Url := "http://y", HealthString := "OK", Up := true, Enabled := true }),
       (3, { Url := "http://z", HealthString := "", Up := true, Enabled := false })],
    getAllErr := none,
    client := fun i _ =>
      if i = 0 then GetResult.response 503 (ReadResult.ok "status: OK, load: 3")
      else GetResult.error "connection refused",
    putErr := fun _ => none,
    subjectTempl := fun _ => Except.ok "subject",
    bodyTempl := fun _ => Except.ok "body",
    addresses := Except.ok ([], []),
    mailSend := fun _ => some "no recipients" }

/-- The cycle that follows `threeServices`: the registry is the one the first
cycle left, everything else is the same. -/
def threeServicesAgain : Env :=
  { threeServices with services := (checkHandler threeServices).store }

/-- The registry of `threeServices` when the listing fails. -/
def listingFails : Env :=
  { threeServices with getAllErr := some "datastore unavailable" }

/-- One service, recorded up, whose endpoint refuses the connection while the
datastore rejects every `Put`; the mail transport accepts the message. -/
def putFails : Env :=
  { services := [(7, { Url := "http://y", HealthString := "OK", Up := true, Enabled := true })],
    getAllErr := none,
    client := fun _ _ => GetResult.error "connection refused",
    putErr := fun _ => some "datastore timeout",
    subjectTempl := fun _ => Except.ok "subject",
    bodyTempl := fun _ => Except.ok "body",
    addresses := Except.ok ([], []),
    mailSend := fun _ => none }

/-- The scenario of `putFails` with a datastore that accepts every `Put`. -/
def putSucceeds : Env :=
  { putFails with putErr := fun _ => none }

end whatsupmon

/-! ## `strings.Contains` and `validate` -/

namespace whatsupmon

theorem hasPrefix_iff (s p : List Char) : hasPrefix s p = true ↔ p <+: s := by
  induction s generalizing p with
  | nil =>
    cases p with
    | nil => simp [hasPrefix]
    | cons d p => simp [hasPrefix]
  | cons c s ih =>
    cases p with
    | nil => simp [hasPrefix]
    | cons d p =>
      simp only [hasPrefix, Bool.and_eq_true, beq_iff_eq, ih, List.cons_prefix_cons]
      constructor
      · rintro ⟨h, hp⟩; exact ⟨h.symm, hp⟩
      · rintro ⟨h, hp⟩; exact ⟨h.symm, hp⟩

theorem containsChars_iff (s substr : List Char) :
    containsChars s substr = true ↔ substr <:+: s := by
  induction s with
  | nil =>
    simp only [containsChars, hasPrefix_iff, List.prefix_nil, List.infix_nil]
  | cons c s ih =>
    simp only [containsChars, Bool.or_eq_true, hasPrefix_iff, ih, List.infix_cons_iff]

theorem Contains_iff (s substr : String) :
    Contains s substr = true ↔ substr.data <:+: s.data :=
  containsChars_iff s.data substr.data

theorem Contains_empty (s : String) : Contains s "" = true := by
  rw [Contains_iff]
  exact List.nil_infix

end whatsupmon

/-! ## One iteration and the whole loop, in closed form -/

namespace whatsupmon

theorem checkStep_eq (env : Env) (i : Nat) (r : ServiceRecord) (st : State) :
    checkStep env i r st =
      { trace := st.trace ++ iterEvents env i r,
        store := if flips env i r then Put (env.putErr i) st.store r.Key (flipped env i r)
                 else st.store,
        notification :=
          { Up := st.notification.Up ++ loopUp env i [r],
            Down := st.notification.Down ++ loopDown env i [r] } } := by
  obtain ⟨⟨url, hs, up, en⟩, k⟩ := r
  obtain ⟨tr, store, ⟨nu, nd⟩⟩ := st
  cases en <;> cases up <;>
    cases hv : validate (env.client i) url hs <;>
    simp [checkStep, iterEvents, flips, flipped, healthy, loopUp, loopDown, hv, List.enumFrom]

theorem loopUp_cons (env : Env) (i : Nat) (r : ServiceRecord) (rs : List ServiceRecord) :
    loopUp env i (r :: rs) = loopUp env i [r] ++ loopUp env (i + 1) rs := by
  simp only [loopUp, List.enumFrom_cons, List.enumFrom_nil, List.filter_cons, List.filter_nil]
  split <;> simp

theorem loopDown_cons (env : Env) (i : Nat) (r : ServiceRecord) (rs : List ServiceRecord) :
    loopDown env i (r :: rs) = loopDown env i [r] ++ loopDown env (i + 1) rs := by
  simp only [loopDown, List.enumFrom_cons, List.enumFrom_nil, List.filter_cons, List.filter_nil]
  split <;> simp

theorem checkLoop_eq (env : Env) (rs : List ServiceRecord) (i : Nat) (st : State) :
    checkLoop env i rs st =
      { trace := st.trace ++ loopEvents env i rs,
        store := loopStore env i rs st.store,
        notification :=
          { Up := st.notification.Up ++ loopUp env i rs,
            Down := st.notification.Down ++ loopDown env i rs } } := by
  induction rs generalizing i st with
  | nil => simp [checkLoop, loopEvents, loopStore, loopUp, loopDown]
  | cons r rs ih =>
    rw [checkLoop, ih, checkStep_eq, loopUp_cons env i r rs, loopDown_cons env i r rs]
    simp [loopEvents, loopStore, List.append_assoc]

theorem getServices_GetAll (env : Env) :
    getServices (GetAll env) =
      match env.getAllErr with
      | some err => .error err
      | none => .ok (snapshot env) := by
  cases h : env.getAllErr with
  | some err => simp [getServices, GetAll, h]
  | none =>
    simp only [getServices, GetAll, h, snapshot]
    congr 1
    induction env.services with
    | nil => rfl
    | cons e es ih => simp [List.zipWith, ih]

end whatsupmon

/-! ## The handler in closed form, and the projections of its trace -/

namespace whatsupmon

theorem checkHandler_ok (env : Env) (h : env.getAllErr = none) :
    checkHandler env =
      { trace := loopEvents env 0 (snapshot env) ++
          (notifyEvents env
            { Up := loopUp env 0 (snapshot env), Down := loopDown env 0 (snapshot env) } ++
           [Event.infof "Completed Checks."]),
        store := loopStore env 0 (snapshot env) env.services,
        notification :=
          { Up := loopUp env 0 (snapshot env), Down := loopDown env 0 (snapshot env) } } := by
  unfold checkHandler
  rw [getServices_GetAll, h]
  simp only [checkLoop_eq, List.nil_append, notifyEvents]
  split
  · rcases hn : notify env _ with ⟨events, _ | err⟩ <;> simp
  · simp

theorem checkHandler_error (env : Env) (err : String) (h : env.getAllErr = some err) :
    checkHandler env =
      { trace := [Event.httpError err StatusInternalServerError],
        store := env.services,
        notification := { Up := [], Down := [] } } := by
  unfold checkHandler
  rw [getServices_GetAll, h]

theorem puts_append (a b : List Event) : puts (a ++ b) = puts a ++ puts b := by
  simp [puts, List.filterMap_append]

theorem gets_append (a b : List Event) : gets (a ++ b) = gets a ++ gets b := by
  simp [gets, List.filterMap_append]

theorem notifyCalls_append (a b : List Event) :
    notifyCalls (a ++ b) = notifyCalls a ++ notifyCalls b := by
  simp [notifyCalls, List.filterMap_append]

theorem httpErrors_append (a b : List Event) :
    httpErrors (a ++ b) = httpErrors a ++ httpErrors b := by
  simp [httpErrors, List.filterMap_append]

theorem mem_puts (trace : List Event) (i : Nat) (key : Key) (src : Service) :
    (i, key, src) ∈ puts trace ↔ Event.put i key src ∈ trace := by
  simp only [puts, List.mem_filterMap]
  constructor
  · rintro ⟨e, he, hs⟩
    cases e <;> simp at hs
    obtain ⟨rfl, rfl, rfl⟩ := hs
    exact he
  · intro he
    exact ⟨_, he, rfl⟩

theorem mem_gets (trace : List Event) (i : Nat) (url : String) :
    (i, url) ∈ gets trace ↔ Event.get i url ∈ trace := by
  simp only [gets, List.mem_filterMap]
  constructor
  · rintro ⟨e, he, hs⟩
    cases e <;> simp at hs
    obtain ⟨rfl, rfl⟩ := hs
    exact he
  · intro he
    exact ⟨_, he, rfl⟩

theorem mem_notifyCalls (trace : List Event) (n : Notification) :
    n ∈ notifyCalls trace ↔ Event.notify n ∈ trace := by
  simp only [notifyCalls, List.mem_filterMap]
  constructor
  · rintro ⟨e, he, hs⟩
    cases e <;> simp at hs
    subst hs
    exact he
  · intro he
    exact ⟨_, he, rfl⟩

/-- The `Put` calls of the loop: one per enabled record whose check
contradicts its flag, carrying the record with the flag set to the outcome. -/
theorem puts_loopEvents (env : Env) (rs : List ServiceRecord) (i : Nat) :
    puts (loopEvents env i rs) =
      ((rs.enumFrom i).filter
        (fun p => p.2.Service.Enabled && (p.2.Service.Up != healthy env p.1 p.2))).map
        (fun p => (p.1, p.2.Key, { p.2.Service with Up := healthy env p.1 p.2 })) := by
  induction rs generalizing i with
  | nil => simp [loopEvents, puts]
  | cons r rs ih =>
    rw [loopEvents, puts_append, ih]
    obtain ⟨⟨url, hs, up, en⟩, k⟩ := r
    cases en <;> cases up <;>
      cases hv : validate (env.client i) url hs <;>
      simp [iterEvents, puts, healthy, flipped, hv, List.enumFrom_cons, List.filter_cons]

/-- The `Get` calls of the loop: one per enabled record. -/
theorem gets_loopEvents (env : Env) (rs : List ServiceRecord) (i : Nat) :
    gets (loopEvents env i rs) =
      ((rs.enumFrom i).filter (fun p => p.2.Service.Enabled)).map
        (fun p => (p.1, p.2.Service.Url)) := by
  induction rs generalizing i with
  | nil => simp [loopEvents, gets]
  | cons r rs ih =>
    rw [loopEvents, gets_append, ih]
    obtain ⟨⟨url, hs, up, en⟩, k⟩ := r
    cases en <;> cases up <;>
      cases hv : validate (env.client i) url hs <;>
      simp [iterEvents, gets, healthy, flipped, hv, List.enumFrom_cons, List.filter_cons]

theorem notifyCalls_loopEvents (env : Env) (rs : List ServiceRecord) (i : Nat) :
    notifyCalls (loopEvents env i rs) = [] := by
  induction rs generalizing i with
  | nil => simp [loopEvents, notifyCalls]
  | cons r rs ih =>
    rw [loopEvents, notifyCalls_append, ih]
    obtain ⟨⟨url, hs, up, en⟩, k⟩ := r
    cases en <;> cases up <;>
      cases hv : validate (env.client i) url hs <;>
      simp [iterEvents, notifyCalls, healthy, flipped, hv]

theorem httpErrors_loopEvents (env : Env) (rs : List ServiceRecord) (i : Nat) :
    httpErrors (loopEvents env i rs) = [] := by
  induction rs generalizing i with
  | nil => simp [loopEvents, httpErrors]
  | cons r rs ih =>
    rw [loopEvents, httpErrors_append, ih]
    obtain ⟨⟨url, hs, up, en⟩, k⟩ := r
    cases en <;> cases up <;>
      cases hv : validate (env.client i) url hs <;>
      simp [iterEvents, httpErrors, healthy, flipped, hv]

/-- The body of `notify` performs at most a `mail.Send`. -/
theorem notify_events (env : Env) (n : Notification) :
    (notify env n).1 = [] ∨ ∃ msg, (notify env n).1 = [Event.mailSend msg] := by
  unfold notify
  cases env.subjectTempl n with
  | error e => simp
  | ok subject =>
    cases env.bodyTempl n with
    | error e => simp
    | ok body =>
      cases getAddresses env.addresses with
      | error e => simp
      | ok addrRecords =>
        simp only
        split <;> simp

/-- After the `notify` call itself, the notification step performs no `Get`,
no `Put`, no further `notify` and no `http.Error`. -/
theorem notifyEvents_tail (env : Env) (n : Notification) :
    notifyEvents env n = [] ∨
      ∃ post, notifyEvents env n = Event.notify n :: post ∧
        gets post = [] ∧ puts post = [] ∧ notifyCalls post = [] ∧ httpErrors post = [] := by
  unfold notifyEvents
  split
  · right
    refine ⟨_, rfl, ?_⟩
    rcases notify_events env n with h | ⟨msg, h⟩ <;> rw [h] <;>
      cases (notify env n).2 <;> simp [gets, puts, notifyCalls, httpErrors]
  · left; rfl

end whatsupmon

/-! ## `ducksmon.go`: the same loop, reporting to the response -/

namespace ducksmon

open whatsupmon

theorem ducks_checkStep_eq (env : Env) (i : Nat) (r : ServiceRecord) (st : State) :
    checkStep env i r st =
      { trace := st.trace ++ (iterEvents env i r).map respond,
        store := if flips env i r then Put (env.putErr i) st.store r.Key (flipped env i r)
                 else st.store } := by
  obtain ⟨⟨url, hs, up, en⟩, k⟩ := r
  obtain ⟨tr, store⟩ := st
  cases en <;> cases up <;>
    cases hv : validate (env.client i) url hs <;>
    simp [checkStep, iterEvents, flips, flipped, healthy, hv, respond]

theorem ducks_checkLoop_eq (env : Env) (rs : List ServiceRecord) (i : Nat) (st : State) :
    checkLoop env i rs st =
      { trace := st.trace ++ (loopEvents env i rs).map respond,
        store := loopStore env i rs st.store } := by
  induction rs generalizing i st with
  | nil => simp [checkLoop, loopEvents, loopStore]
  | cons r rs ih =>
    rw [checkLoop, ih, ducks_checkStep_eq]
    simp [loopEvents, loopStore, List.append_assoc]

theorem ducks_checkHandler_ok (env : Env) (h : env.getAllErr = none) :
    checkHandler env =
      { trace := (loopEvents env 0 (snapshot env)).map respond ++ [Event.fprint "Done!"],
        store := loopStore env 0 (snapshot env) env.services } := by
  unfold checkHandler
  rw [getServices_GetAll, h]
  simp only [ducks_checkLoop_eq, List.nil_append]

theorem ducks_checkHandler_error (env : Env) (err : String) (h : env.getAllErr = some err) :
    checkHandler env =
      { trace := [Event.httpError err StatusInternalServerError], store := env.services } := by
  unfold checkHandler
  rw [getServices_GetAll, h]

theorem puts_map_respond (l : List Event) : puts (l.map respond) = puts l := by
  induction l with
  | nil => rfl
  | cons e l ih =>
    have h := ih
    simp only [puts] at h ⊢
    cases e <;> simp [respond, h]

theorem gets_map_respond (l : List Event) : gets (l.map respond) = gets l := by
  induction l with
  | nil => rfl
  | cons e l ih =>
    have h := ih
    simp only [gets] at h ⊢
    cases e <;> simp [respond, h]

theorem httpErrors_map_respond (l : List Event) : httpErrors (l.map respond) = httpErrors l := by
  induction l with
  | nil => rfl
  | cons e l ih =>
    have h := ih
    simp only [httpErrors] at h ⊢
    cases e <;> simp [respond, h]

end ducksmon

/-! ## The registry after the loop -/

namespace whatsupmon

theorem map_entity_snapshot (env : Env) : (snapshot env).map entity = env.services := by
  simp [snapshot, entity, Function.comp_def]

/-- A successful `Put` on a key stored once replaces that entity in place. -/
theorem Put_replace (a b : List (Key × Service)) (key : Key) (old src : Service)
    (ha : key ∉ a.map Prod.fst) (hb : key ∉ b.map Prod.fst) :
    Put none (a ++ (key, old) :: b) key src = a ++ (key, src) :: b := by
  have hmap : ∀ l : List (Key × Service), key ∉ l.map Prod.fst →
      l.map (fun e => if e.1 = key then (key, src) else e) = l := by
    intro l hl
    induction l with
    | nil => rfl
    | cons e l ih =>
      simp only [List.map_cons, List.mem_cons, not_or] at hl
      rw [List.map_cons, ih hl.2, if_neg (fun h => hl.1 h.symm)]
  simp only [Put]
  rw [if_pos (by simp)]
  simp [hmap a ha, hmap b hb]

/-- With distinct keys, the loop leaves every entity at its place and changes
the flag of exactly the records whose flip was written successfully. -/
theorem loopStore_eq (env : Env) (rs : List ServiceRecord) (i : Nat)
    (done : List (Key × Service))
    (hnd : ((done ++ rs.map entity).map Prod.fst).Nodup) :
    loopStore env i rs (done ++ rs.map entity) =
      done ++ (rs.enumFrom i).map (fun p =>
        (p.2.Key,
          if flips env p.1 p.2 && (env.putErr p.1).isNone then flipped env p.1 p.2
          else p.2.Service)) := by
  induction rs generalizing i done with
  | nil => simp [loopStore]
  | cons r rs ih =>
    have hstep :
        (if flips env i r then
            Put (env.putErr i) (done ++ (r :: rs).map entity) r.Key (flipped env i r)
          else done ++ (r :: rs).map entity) =
        (done ++ [(r.Key,
            if flips env i r && (env.putErr i).isNone then flipped env i r
            else r.Service)]) ++ rs.map entity := by
      simp only [List.map_cons, List.map_append, List.nodup_append, List.nodup_cons,
        List.mem_cons, entity] at hnd
      by_cases hf : flips env i r = true
      · cases hp : env.putErr i with
        | some err => simp [hf, Put, entity]
        | none =>
          simp only [hf, if_true, List.map_cons, entity]
          rw [Put_replace]
          · simp
          · intro hmem
            exact hnd.2.2 hmem (List.mem_cons_self _ _)
          · exact hnd.2.1.1
      · simp [hf, entity]
    rw [loopStore, hstep, ih]
    · simp [List.enumFrom_cons, List.append_assoc]
    · simpa [entity, List.append_assoc] using hnd

end whatsupmon

/-! ## Projections of a whole cycle -/

namespace whatsupmon

theorem puts_notifyEvents (env : Env) (n : Notification) : puts (notifyEvents env n) = [] := by
  rcases notifyEvents_tail env n with hn | ⟨post, hn, -, hp, -, -⟩
  · rw [hn]; rfl
  · rw [hn, ← hp]; rfl

theorem gets_notifyEvents (env : Env) (n : Notification) : gets (notifyEvents env n) = [] := by
  rcases notifyEvents_tail env n with hn | ⟨post, hn, hg, -, -, -⟩
  · rw [hn]; rfl
  · rw [hn, ← hg]; rfl

theorem httpErrors_notifyEvents (env : Env) (n : Notification) :
    httpErrors (notifyEvents env n) = [] := by
  rcases notifyEvents_tail env n with hn | ⟨post, hn, -, -, -, hh⟩
  · rw [hn]; rfl
  · rw [hn, ← hh]; rfl

theorem puts_checkHandler (env : Env) (h : env.getAllErr = none) :
    puts (checkHandler env).trace =
      ((snapshot env).enum.filter
        (fun p => p.2.Service.Enabled && (p.2.Service.Up != healthy env p.1 p.2))).map
        (fun p => (p.1, p.2.Key, { p.2.Service with Up := healthy env p.1 p.2 })) := by
  rw [checkHandler_ok env h]
  simp only [puts_append, puts_loopEvents, puts_notifyEvents, List.enum, List.append_nil]
  simp [puts]

theorem gets_checkHandler (env : Env) (h : env.getAllErr = none) :
    gets (checkHandler env).trace =
      ((snapshot env).enum.filter (fun p => p.2.Service.Enabled)).map
        (fun p => (p.1, p.2.Service.Url)) := by
  rw [checkHandler_ok env h]
  simp only [gets_append, gets_loopEvents, gets_notifyEvents, List.enum, List.append_nil]
  simp [gets]

theorem store_checkHandler (env : Env) (h : env.getAllErr = none)
    (hnd : (env.services.map Prod.fst).Nodup) :
    (checkHandler env).store =
      (snapshot env).enum.map (fun p =>
        (p.2.Key,
          if flips env p.1 p.2 && (env.putErr p.1).isNone then flipped env p.1 p.2
          else p.2.Service)) := by
  rw [checkHandler_ok env h]
  have hl := loopStore_eq env (snapshot env) 0 []
    (by simpa [map_entity_snapshot] using hnd)
  simpa [map_entity_snapshot, List.enum] using hl

end whatsupmon

namespace ducksmon

open whatsupmon

theorem puts_ducks_checkHandler (env : Env) (h : env.getAllErr = none) :
    puts (checkHandler env).trace = puts (whatsupmon.checkHandler env).trace := by
  rw [whatsupmon.checkHandler_ok env h, ducks_checkHandler_ok env h]
  simp only [puts_append, puts_map_respond, puts_notifyEvents, List.append_nil]
  simp [puts]

theorem gets_ducks_checkHandler (env : Env) (h : env.getAllErr = none) :
    gets (checkHandler env).trace = gets (whatsupmon.checkHandler env).trace := by
  rw [whatsupmon.checkHandler_ok env h, ducks_checkHandler_ok env h]
  simp only [gets_append, gets_map_respond, gets_notifyEvents, List.append_nil]
  simp [gets]

theorem store_ducks_checkHandler (env : Env) :
    (checkHandler env).store = (whatsupmon.checkHandler env).store := by
  cases h : env.getAllErr with
  | none => rw [whatsupmon.checkHandler_ok env h, ducks_checkHandler_ok env h]
  | some err => rw [whatsupmon.checkHandler_error env err h, ducks_checkHandler_error env err h]

end ducksmon

namespace whatsupmon

/-- In a list whose images under `f` are distinct, two positions holding
elements with the same image coincide. -/
theorem index_eq_of_nodup_map {α β : Type} (f : α → β) (l : List α) (hnd : (l.map f).Nodup)
    (i j : Nat) (a b : α) (hi : l[i]? = some a) (hj : l[j]? = some b) (hab : f a = f b) :
    i = j := by
  induction l generalizing i j with
  | nil => simp at hi
  | cons x xs ih =>
    simp only [List.map_cons, List.nodup_cons, List.mem_map, not_exists, not_and] at hnd
    cases i with
    | zero =>
      cases j with
      | zero => rfl
      | succ j =>
        simp only [List.getElem?_cons_zero, Option.some.injEq] at hi
        simp only [List.getElem?_cons_succ] at hj
        subst hi
        exact absurd hab.symm (hnd.1 b (List.getElem?_mem hj))
    | succ i =>
      cases j with
      | zero =>
        simp only [List.getElem?_cons_zero, Option.some.injEq] at hj
        simp only [List.getElem?_cons_succ] at hi
        subst hj
        exact absurd hab (hnd.1 a (List.getElem?_mem hi))
      | succ j =>
        simp only [List.getElem?_cons_succ] at hi hj
        rw [ih hnd.2 i j hi hj]

theorem map_Key_snapshot (env : Env) :
    (snapshot env).map (fun r => r.Key) = env.services.map Prod.fst := by
  simp [snapshot, Function.comp_def]

theorem notifyEvents_of_empty (env : Env) (n : Notification) (hu : n.Up = []) (hd : n.Down = []) :
    notifyEvents env n = [] := by
  simp [notifyEvents, hu, hd]

theorem notifyEvents_of_nonempty (env : Env) (n : Notification)
    (hne : ¬ (n.Up = [] ∧ n.Down = [])) :
    ∃ post, notifyEvents env n = Event.notify n :: post ∧
      gets post = [] ∧ puts post = [] ∧ notifyCalls post = [] ∧ httpErrors post = [] := by
  rcases notifyEvents_tail env n with hn | hn
  · exfalso
    apply hne
    unfold notifyEvents at hn
    split at hn
    · simp at hn
    · rename_i hc
      simp only [gt_iff_lt, List.length_pos, Bool.or_eq_true, decide_eq_true_eq, not_or,
        ne_eq, not_not] at hc
      exact hc
  · exact hn

end whatsupmon

/-! ## Cycles in which nothing flips -/

namespace whatsupmon

/-- The outcome of a check depends on the record only through its URL and
health string. -/
theorem healthy_congr (env : Env) (i : Nat) (r r' : ServiceRecord)
    (hu : r'.Service.Url = r.Service.Url) (hh : r'.Service.HealthString = r.Service.HealthString) :
    healthy env i r' = healthy env i r := by
  simp [healthy, hu, hh]

theorem loopStore_of_no_flip (env : Env) (rs : List ServiceRecord) (i : Nat)
    (store : List (Key × Service))
    (hq : ∀ p ∈ rs.enumFrom i, flips env p.1 p.2 = false) :
    loopStore env i rs store = store := by
  induction rs generalizing i store with
  | nil => rfl
  | cons r rs ih =>
    have h0 : flips env i r = false := hq (i, r) (by simp [List.enumFrom_cons])
    rw [loopStore, h0, ih]
    · simp
    · intro p hp
      exact hq p (by simp [List.enumFrom_cons, hp])

theorem loopUp_of_no_flip (env : Env) (rs : List ServiceRecord) (i : Nat)
    (hq : ∀ p ∈ rs.enumFrom i, flips env p.1 p.2 = false) :
    loopUp env i rs = [] := by
  simp only [loopUp, List.map_eq_nil_iff, List.filter_eq_nil_iff]
  intro p hp hf
  have h0 := hq p hp
  simp only [flips] at h0
  revert h0 hf
  cases p.2.Service.Enabled <;> cases p.2.Service.Up <;> cases healthy env p.1 p.2 <;> simp

theorem loopDown_of_no_flip (env : Env) (rs : List ServiceRecord) (i : Nat)
    (hq : ∀ p ∈ rs.enumFrom i, flips env p.1 p.2 = false) :
    loopDown env i rs = [] := by
  simp only [loopDown, List.map_eq_nil_iff, List.filter_eq_nil_iff]
  intro p hp hf
  have h0 := hq p hp
  simp only [flips] at h0
  revert h0 hf
  cases p.2.Service.Enabled <;> cases p.2.Service.Up <;> cases healthy env p.1 p.2 <;> simp

/-- The indices of the `Put` calls of a cycle are pairwise distinct. -/
theorem nodup_put_indices (env : Env) (h : env.getAllErr = none) :
    ((puts (checkHandler env).trace).map (fun w => w.1)).Nodup := by
  rw [puts_checkHandler env h, List.map_map]
  have hsub : (((snapshot env).enum.filter
      (fun p => p.2.Service.Enabled && (p.2.Service.Up != healthy env p.1 p.2))).map
      Prod.fst).Sublist ((snapshot env).enum.map Prod.fst) :=
    List.Sublist.map _ (List.filter_sublist _)
  rw [List.enum_map_fst] at hsub
  exact (List.nodup_range _).sublist hsub

/-- The pointwise form of the registry after a cycle whose writes all succeed. -/
theorem store_entry (env : Env) (hput : ∀ i, env.putErr i = none) (i : Nat) (r : ServiceRecord) :
    (if flips env i r && (env.putErr i).isNone then flipped env i r else r.Service) =
      (if r.Service.Enabled then { r.Service with Up := healthy env i r } else r.Service) := by
  rw [hput i]
  simp only [flips, flipped]
  generalize healthy env i r = outcome
  obtain ⟨⟨url, hs, up, en⟩, k⟩ := r
  cases en <;> cases up <;> cases outcome <;> simp

/-- The registry after a cycle whose writes all succeed. -/
theorem registry_store_eq (env : Env) (h : env.getAllErr = none)
    (hput : ∀ i, env.putErr i = none) (hnd : (env.services.map Prod.fst).Nodup) :
    (checkHandler env).store =
      (snapshot env).enum.map (fun p =>
        (p.2.Key,
          if p.2.Service.Enabled then { p.2.Service with Up := healthy env p.1 p.2 }
          else p.2.Service)) := by
  rw [store_checkHandler env h hnd]
  apply List.map_congr_left
  intro p _
  rw [store_entry env hput]

/-- A record rewritten with the outcome of its check does not flip when it is
checked again with the same outcome. -/
theorem flips_after (env env2 : Env) (hc : ∀ i r, healthy env2 i r = healthy env i r)
    (j : Nat) (r : ServiceRecord) :
    flips env2 j
      { Service := if r.Service.Enabled then { r.Service with Up := healthy env j r }
                   else r.Service,
        Key := r.Key } = false := by
  have hh : healthy env2 j
      { Service := if r.Service.Enabled then { r.Service with Up := healthy env j r }
                   else r.Service,
        Key := r.Key } = healthy env j r := by
    rw [hc]
    apply healthy_congr
    · show (if r.Service.Enabled then { r.Service with Up := healthy env j r }
          else r.Service).Url = r.Service.Url
      split <;> rfl
    · show (if r.Service.Enabled then { r.Service with Up := healthy env j r }
          else r.Service).HealthString = r.Service.HealthString
      split <;> rfl
  simp only [flips, hh]
  generalize healthy env j r = outcome
  obtain ⟨⟨url, hs, up, en⟩, k⟩ := r
  cases en <;> cases up <;> cases outcome <;> simp

end whatsupmon

/-! ## The result of `Put` is never read -/

namespace whatsupmon

theorem loopEvents_putErr (env : Env) (putErr : Nat → Option String)
    (rs : List ServiceRecord) (i : Nat) :
    loopEvents { env with putErr := putErr } i rs = loopEvents env i rs := by
  induction rs generalizing i with
  | nil => rfl
  | cons r rs ih =>
    rw [loopEvents, loopEvents, ih]
    rfl

theorem checkHandler_trace_putErr (env : Env) (putErr : Nat → Option String) :
    (checkHandler { env with putErr := putErr }).trace = (checkHandler env).trace ∧
    (checkHandler { env with putErr := putErr }).notification =
      (checkHandler env).notification := by
  rcases Option.eq_none_or_eq_some env.getAllErr with h | ⟨err, h⟩
  · rw [checkHandler_ok env h, checkHandler_ok { env with putErr := putErr } h]
    simp only [loopEvents_putErr]
    exact ⟨rfl, rfl⟩
  · rw [checkHandler_error env err h, checkHandler_error { env with putErr := putErr } err h]
    exact ⟨rfl, rfl⟩

end whatsupmon

namespace ducksmon

open whatsupmon

theorem ducks_checkHandler_trace_putErr (env : Env) (putErr : Nat → Option String) :
    (checkHandler { env with putErr := putErr }).trace = (checkHandler env).trace := by
  rcases Option.eq_none_or_eq_some env.getAllErr with h | ⟨err, h⟩
  · rw [ducks_checkHandler_ok env h, ducks_checkHandler_ok { env with putErr := putErr } h]
    simp only [loopEvents_putErr]
    rfl
  · rw [ducks_checkHandler_error env err h,
      ducks_checkHandler_error { env with putErr := putErr } err h]

end ducksmon

/-! ## Every assignment of check outcomes is the behaviour of some client -/

namespace whatsupmon

/-- The client that answers the check of iteration `i` as `outcome i`
prescribes: with a body equal to the health string of the record at place `i`
when the outcome is Healthy, with a transport error otherwise. -/
theorem outcomes_realised (env : Env) (outcome : Nat → Bool) :
    ∃ client : Nat → String → GetResult,
      ∀ i r, (snapshot env)[i]? = some r →
        healthy { env with client := client } i r = outcome i := by
  refine ⟨fun i _ =>
    if outcome i then
      GetResult.response 200
        (ReadResult.ok (((snapshot env)[i]?.map (fun r => r.Service.HealthString)).getD ""))
    else GetResult.error "down", ?_⟩
  intro i r hr
  cases ho : outcome i with
  | false => simp [healthy, validate, ho]
  | true =>
    have hc : Contains r.Service.HealthString r.Service.HealthString = true :=
      (Contains_iff _ _).2 List.infix_rfl
    simp [healthy, validate, ho, hr, hc]

end whatsupmon

/-! ## The claims -/

namespace whatsupmon

/-- C6: `validate` returns `nil` (Healthy) exactly when the fetch succeeds, the
body is read, and the health string is empty or a substring of the body; in
every other case it returns an error (Unhealthy).  The status code of the
response plays no part.  With an empty health string every successfully read
body is Healthy, and health string "OK" is found in "status: OK, load: 3". -/
theorem validate_healthy_iff (client : String → GetResult) (url healthstring : String) :
    (validate client url healthstring = none ↔
      ∃ status body, client url = GetResult.response status (ReadResult.ok body) ∧
        (healthstring = "" ∨ healthstring.data <:+: body.data)) ∧
    ((validate client url healthstring).isSome ↔
      ¬ ∃ status body, client url = GetResult.response status (ReadResult.ok body) ∧
        (healthstring = "" ∨ healthstring.data <:+: body.data)) ∧
    (∀ (status status' : Nat) (rd : ReadResult),
      validate (fun _ => GetResult.response status rd) url healthstring =
        validate (fun _ => GetResult.response status' rd) url healthstring) ∧
    (∀ (status : Nat) (body : String),
      validate (fun _ => GetResult.response status (ReadResult.ok body)) url "" = none) ∧
    (∀ status : Nat,
      validate (fun _ => GetResult.response status (ReadResult.ok "status: OK, load: 3"))
        url "OK" = none) := by
  have key : validate client url healthstring = none ↔
      ∃ status body, client url = GetResult.response status (ReadResult.ok body) ∧
        (healthstring = "" ∨ healthstring.data <:+: body.data) := by
    unfold validate
    cases hc : client url with
    | error err => simp
    | response status rd =>
      cases rd with
      | error err => simp
      | ok body =>
        by_cases hb : Contains body healthstring = true
        · have hinf := (Contains_iff body healthstring).1 hb
          simp only [hb, Bool.not_true, Bool.false_eq_true, if_false, true_iff]
          exact ⟨status, body, rfl, Or.inr hinf⟩
        · have hb' : Contains body healthstring = false := by simpa using hb
          simp only [hb', Bool.not_false, if_true]
          constructor
          · intro hsome
            exact absurd hsome (by simp)
          · rintro ⟨status', body', heq, hor⟩
            simp only [GetResult.response.injEq, ReadResult.ok.injEq] at heq
            obtain ⟨-, rfl⟩ := heq
            exfalso
            apply hb
            rcases hor with rfl | hinf
            · exact Contains_empty _
            · exact (Contains_iff _ _).2 hinf
  refine ⟨key, ?_, ?_, ?_, ?_⟩
  · rw [← key]
    cases validate client url healthstring <;> simp
  · intro status status' rd
    rfl
  · intro status body
    simp [validate, Contains_empty]
  · intro status
    have h : Contains "status: OK, load: 3" "OK" = true := by decide
    simp [validate, h]

/-- C1: when the listing succeeds, one cycle reports as gone down exactly the
enabled records whose persisted flag is true and whose check is Unhealthy, and
as gone up exactly the enabled records whose persisted flag is false and whose
check is Healthy, each in listing order (every entry is the service value the
handler holds when it appends it, with the flag already set to the new state).
Both handlers issue exactly one `datastore.Put` for each of those records, in
listing order, carrying the record with its flag set to the outcome of the
check, and issue no `Put` in the iteration of a record whose outcome matches
its persisted flag. -/
theorem checkHandler_transitions (env : Env) (h : env.getAllErr = none) :
    (checkHandler env).notification.Down =
      ((snapshot env).enum.filter
        (fun p => p.2.Service.Enabled && p.2.Service.Up && !healthy env p.1 p.2)).map
        (fun p => { p.2.Service with Up := false }) ∧
    (checkHandler env).notification.Up =
      ((snapshot env).enum.filter
        (fun p => p.2.Service.Enabled && !p.2.Service.Up && healthy env p.1 p.2)).map
        (fun p => { p.2.Service with Up := true }) ∧
    puts (checkHandler env).trace =
      ((snapshot env).enum.filter
        (fun p => p.2.Service.Enabled && (p.2.Service.Up != healthy env p.1 p.2))).map
        (fun p => (p.1, p.2.Key, { p.2.Service with Up := healthy env p.1 p.2 })) ∧
    puts (ducksmon.checkHandler env).trace = puts (checkHandler env).trace ∧
    (∀ (i : Nat) (r : ServiceRecord), (snapshot env)[i]? = some r →
      healthy env i r = r.Service.Up →
      ∀ (key : Key) (src : Service),
        Event.put i key src ∉ (checkHandler env).trace ∧
        Event.put i key src ∉ (ducksmon.checkHandler env).trace) := by
  have hputs := puts_checkHandler env h
  have hducks := ducksmon.puts_ducks_checkHandler env h
  refine ⟨?_, ?_, hputs, hducks, ?_⟩
  · rw [checkHandler_ok env h]; rfl
  · rw [checkHandler_ok env h]; rfl
  · intro i r hr hm key src
    have hno : Event.put i key src ∉ (checkHandler env).trace := by
      rw [← mem_puts, hputs]
      simp only [List.mem_map, List.mem_filter, not_exists, not_and]
      rintro ⟨j, r'⟩ ⟨hmem, hf⟩ heq
      simp only [Prod.mk.injEq] at heq
      obtain ⟨rfl, -, -⟩ := heq
      have hget := List.mem_enum_iff_getElem?.1 hmem
      simp only at hget
      rw [hr] at hget
      obtain rfl := Option.some.inj hget
      simp [hm] at hf
    refine ⟨hno, ?_⟩
    rw [← mem_puts, hducks, mem_puts]
    exact hno

/-- C1 at `threeServices`: the first service goes up, the second goes down,
and each handler writes both, in listing order. -/
theorem checkHandler_transitions_witness :
    threeServices.getAllErr = none ∧
    (checkHandler threeServices).notification.Down =
      [{ Url := "http://y", HealthString := "OK", Up := false, Enabled := true }] ∧
    (checkHandler threeServices).notification.Up =
      [{ Url := "http://x/health", HealthString := "OK", Up := true, Enabled := true }] ∧
    puts (ducksmon.checkHandler threeServices).trace =
      [(0, 1, { Url := "http://x/health", HealthString := "OK", Up := true, Enabled := true }),
       (1, 2, { Url := "http://y", HealthString := "OK", Up := false, Enabled := true })] :=
  ⟨rfl,
   (checkHandler_transitions threeServices rfl).1.trans (by decide),
   (checkHandler_transitions threeServices rfl).2.1.trans (by decide),
   ((checkHandler_transitions threeServices rfl).2.2.2.1.trans
      (checkHandler_transitions threeServices rfl).2.2.1).trans (by decide)⟩

/-- C2: when the listing succeeds, the iteration of a disabled record performs
no `client.Get` (so `validate` is not called for it) and no `datastore.Put`,
in either handler and whatever the client would have answered.  When the
registry keys are distinct, no `Put` of the whole cycle carries the record's
key and the registry holds the record unchanged, at its place, after the
cycle. -/
theorem disabled_untouched (env : Env) (h : env.getAllErr = none) (i : Nat) (r : ServiceRecord)
    (hr : (snapshot env)[i]? = some r) (hd : r.Service.Enabled = false) :
    (∀ url, Event.get i url ∉ (checkHandler env).trace) ∧
    (∀ key src, Event.put i key src ∉ (checkHandler env).trace) ∧
    (∀ url, Event.get i url ∉ (ducksmon.checkHandler env).trace) ∧
    (∀ key src, Event.put i key src ∉ (ducksmon.checkHandler env).trace) ∧
    ((env.services.map Prod.fst).Nodup →
      (∀ j src, Event.put j r.Key src ∉ (checkHandler env).trace) ∧
      (∀ j src, Event.put j r.Key src ∉ (ducksmon.checkHandler env).trace) ∧
      (checkHandler env).store[i]? = some (r.Key, r.Service) ∧
      (ducksmon.checkHandler env).store[i]? = some (r.Key, r.Service)) := by
  have hget : ∀ url, Event.get i url ∉ (checkHandler env).trace := by
    intro url
    rw [← mem_gets, gets_checkHandler env h]
    simp only [List.mem_map, List.mem_filter, not_exists, not_and]
    rintro ⟨j, r'⟩ ⟨hmem, hen⟩ heq
    simp only [Prod.mk.injEq] at heq
    obtain ⟨rfl, -⟩ := heq
    have hj := List.mem_enum_iff_getElem?.1 hmem
    simp only at hj
    rw [hr] at hj
    obtain rfl := Option.some.inj hj
    simp [hd] at hen
  have hput : ∀ key src, Event.put i key src ∉ (checkHandler env).trace := by
    intro key src
    rw [← mem_puts, puts_checkHandler env h]
    simp only [List.mem_map, List.mem_filter, not_exists, not_and]
    rintro ⟨j, r'⟩ ⟨hmem, hen⟩ heq
    simp only [Prod.mk.injEq] at heq
    obtain ⟨rfl, -, -⟩ := heq
    have hj := List.mem_enum_iff_getElem?.1 hmem
    simp only at hj
    rw [hr] at hj
    obtain rfl := Option.some.inj hj
    simp [hd] at hen
  refine ⟨hget, hput, ?_, ?_, ?_⟩
  · intro url
    rw [← mem_gets, ducksmon.gets_ducks_checkHandler env h, mem_gets]
    exact hget url
  · intro key src
    rw [← mem_puts, ducksmon.puts_ducks_checkHandler env h, mem_puts]
    exact hput key src
  · intro hnd
    have hkey : ∀ j src, Event.put j r.Key src ∉ (checkHandler env).trace := by
      intro j src
      rw [← mem_puts, puts_checkHandler env h]
      simp only [List.mem_map, List.mem_filter, not_exists, not_and]
      rintro ⟨j', r'⟩ ⟨hmem, hen⟩ heq
      simp only [Prod.mk.injEq] at heq
      obtain ⟨rfl, hk, -⟩ := heq
      have hj := List.mem_enum_iff_getElem?.1 hmem
      simp only at hj
      have hij := index_eq_of_nodup_map (fun r => r.Key) (snapshot env)
        (by rw [map_Key_snapshot]; exact hnd) j' i r' r hj hr hk
      subst hij
      rw [hr] at hj
      obtain rfl := Option.some.inj hj
      simp [hd] at hen
    have hstore : (checkHandler env).store[i]? = some (r.Key, r.Service) := by
      rw [store_checkHandler env h hnd, List.getElem?_map, List.getElem?_enum, hr]
      simp [flips, hd]
    refine ⟨hkey, ?_, hstore, ?_⟩
    · intro j src
      rw [← mem_puts, ducksmon.puts_ducks_checkHandler env h, mem_puts]
      exact hkey j src
    · rw [ducksmon.store_ducks_checkHandler]
      exact hstore

/-- C2 at `threeServices`, whose third service is disabled. -/
theorem disabled_untouched_witness :
    threeServices.getAllErr = none ∧
    (snapshot threeServices)[2]? =
      some { Service := { Url := "http://z", HealthString := "", Up := true, Enabled := false },
             Key := 3 } ∧
    (∀ url, Event.get 2 url ∉ (checkHandler threeServices).trace) ∧
    (checkHandler threeServices).store[2]? =
      some (3, { Url := "http://z", HealthString := "", Up := true, Enabled := false }) :=
  ⟨rfl, rfl,
   (disabled_untouched threeServices rfl 2
      { Service := { Url := "http://z", HealthString := "", Up := true, Enabled := false },
        Key := 3 } rfl rfl).1,
   ((disabled_untouched threeServices rfl 2
      { Service := { Url := "http://z", HealthString := "", Up := true, Enabled := false },
        Key := 3 } rfl rfl).2.2.2.2 (by decide)).2.2.1⟩

/-- C3: when the listing succeeds, the cycle of `whatsupmon.go` calls `notify`
zero times if no service transitioned, and exactly once otherwise; the single
call comes after every `Get` and `Put` of the loop and receives the aggregate
of the cycle, whose `Up` and `Down` lists hold all services that went up and
all that went down. -/
theorem notify_once (env : Env) (h : env.getAllErr = none) :
    ((checkHandler env).notification.Up = [] ∧ (checkHandler env).notification.Down = [] →
      notifyCalls (checkHandler env).trace = []) ∧
    (¬ ((checkHandler env).notification.Up = [] ∧ (checkHandler env).notification.Down = []) →
      notifyCalls (checkHandler env).trace = [(checkHandler env).notification] ∧
      ∃ pre post,
        (checkHandler env).trace =
          pre ++ Event.notify (checkHandler env).notification :: post ∧
        gets pre =
          ((snapshot env).enum.filter (fun p => p.2.Service.Enabled)).map
            (fun p => (p.1, p.2.Service.Url)) ∧
        puts pre = puts (checkHandler env).trace ∧
        gets post = [] ∧ puts post = [] ∧ notifyCalls post = []) ∧
    (checkHandler env).notification.Up =
      ((snapshot env).enum.filter
        (fun p => p.2.Service.Enabled && !p.2.Service.Up && healthy env p.1 p.2)).map
        (fun p => { p.2.Service with Up := true }) ∧
    (checkHandler env).notification.Down =
      ((snapshot env).enum.filter
        (fun p => p.2.Service.Enabled && p.2.Service.Up && !healthy env p.1 p.2)).map
        (fun p => { p.2.Service with Up := false }) := by
  rw [checkHandler_ok env h]
  refine ⟨?_, ?_, rfl, rfl⟩
  · rintro ⟨hu, hd⟩
    simp only at hu hd
    rw [notifyEvents_of_empty env _ hu hd]
    simp only [notifyCalls_append, notifyCalls_loopEvents, List.nil_append]
    rfl
  · intro hne
    obtain ⟨post, hn, hg, hp, hc, -⟩ := notifyEvents_of_nonempty env _ hne
    simp only at hn ⊢
    rw [hn]
    refine ⟨?_, loopEvents env 0 (snapshot env), post ++ [Event.infof "Completed Checks."],
      ?_, ?_, ?_, ?_, ?_, ?_⟩
    · simp only [notifyCalls_append, notifyCalls_loopEvents, List.nil_append]
      have hcons : ∀ (n : Notification) (l : List Event),
          notifyCalls (Event.notify n :: l) = n :: notifyCalls l := fun _ _ => rfl
      rw [hcons, hc]
      rfl
    · simp
    · rw [gets_loopEvents]; rfl
    · have hpc : ∀ (n : Notification) (l : List Event),
          puts (Event.notify n :: l) = puts l := fun _ _ => rfl
      rw [puts_append, List.cons_append, hpc, puts_append, hp]
      simp [puts]
    · rw [gets_append, hg]; rfl
    · rw [puts_append, hp]; rfl
    · rw [notifyCalls_append, hc]; rfl

/-- C3 at `threeServices`: one service goes up and another goes down in the
same cycle, and the one `notify` call carries both. -/
theorem notify_once_witness :
    threeServices.getAllErr = none ∧
    notifyCalls (checkHandler threeServices).trace =
      [{ Up := [{ Url := "http://x/health", HealthString := "OK", Up := true, Enabled := true }],
         Down := [{ Url := "http://y", HealthString := "OK", Up := false, Enabled := true }] }] :=
  ⟨rfl, ((notify_once threeServices rfl).2.1 (by decide)).1.trans (by decide)⟩

/-- C5: when the listing succeeds, every write succeeds and the registry keys
are distinct, the registry after a cycle (of either handler) holds, at the
place of every record of the snapshot and under the same key, that record with
its flag set to the outcome of this cycle's check if it is enabled, and
unchanged if it is disabled; the keys are the same, in the same order, so no
record is added or removed. -/
theorem registry_after_cycle (env : Env) (h : env.getAllErr = none)
    (hput : ∀ i, env.putErr i = none) (hnd : (env.services.map Prod.fst).Nodup) :
    (checkHandler env).store =
      (snapshot env).enum.map (fun p =>
        (p.2.Key,
          if p.2.Service.Enabled then { p.2.Service with Up := healthy env p.1 p.2 }
          else p.2.Service)) ∧
    (ducksmon.checkHandler env).store = (checkHandler env).store ∧
    (checkHandler env).store.map Prod.fst = env.services.map Prod.fst := by
  have hstore := registry_store_eq env h hput hnd
  refine ⟨hstore, ducksmon.store_ducks_checkHandler env, ?_⟩
  rw [hstore, List.map_map, ← map_Key_snapshot]
  have hfst : ((fun p : Key × Service => p.1) ∘ fun p : Nat × ServiceRecord =>
      (p.2.Key,
        if p.2.Service.Enabled then { p.2.Service with Up := healthy env p.1 p.2 }
        else p.2.Service)) = (fun r : ServiceRecord => r.Key) ∘ Prod.snd := rfl
  rw [hfst, ← List.map_map, List.enum_map_snd]

/-- C5 at `threeServices`: the two enabled records carry the outcomes of their
checks, the disabled one is unchanged. -/
theorem registry_after_cycle_witness :
    threeServices.getAllErr = none ∧
    (∀ i, threeServices.putErr i = none) ∧
    (threeServices.services.map Prod.fst).Nodup ∧
    (ducksmon.checkHandler threeServices).store =
      [(1, { Url := "http://x/health", HealthString := "OK", Up := true, Enabled := true }),
       (2, { Url := "http://y", HealthString := "OK", Up := false, Enabled := true }),
       (3, { Url := "http://z", HealthString := "", Up := true, Enabled := false })] :=
  ⟨rfl, fun _ => rfl, by decide,
   ((registry_after_cycle threeServices rfl (fun _ => rfl) (by decide)).2.1.trans
      (registry_after_cycle threeServices rfl (fun _ => rfl) (by decide)).1).trans (by decide)⟩

/-- C4: let a first cycle run with the listing succeeding, every write applied
and distinct registry keys, and let a second cycle run on the registry the
first one left, with the same check outcomes.  The second cycle reports no
transition, issues no `Put`, calls `notify` zero times and leaves the registry
as it found it; over the two cycles no iteration index (no service) is written
more than once. -/
theorem second_cycle_quiet (env env2 : Env) (h : env.getAllErr = none)
    (hput : ∀ i, env.putErr i = none) (hnd : (env.services.map Prod.fst).Nodup)
    (h2 : env2.getAllErr = none) (hs : env2.services = (checkHandler env).store)
    (hc : ∀ i r, healthy env2 i r = healthy env i r) :
    (checkHandler env2).notification = { Up := [], Down := [] } ∧
    puts (checkHandler env2).trace = [] ∧
    notifyCalls (checkHandler env2).trace = [] ∧
    (checkHandler env2).store = env2.services ∧
    (∀ i, ((puts (checkHandler env).trace ++ puts (checkHandler env2).trace).map
      (fun w => w.1)).count i ≤ 1) := by
  have hsnap : snapshot env2 =
      (snapshot env).enum.map (fun p =>
        ({ Service := if p.2.Service.Enabled then
                        { p.2.Service with Up := healthy env p.1 p.2 }
                      else p.2.Service,
           Key := p.2.Key } : ServiceRecord)) := by
    rw [snapshot, hs, (registry_store_eq env h hput hnd), List.map_map]
    rfl
  have hq : ∀ p ∈ (snapshot env2).enumFrom 0, flips env2 p.1 p.2 = false := by
    rintro ⟨j, r'⟩ hp
    have hj := List.mem_enum_iff_getElem?.1 hp
    simp only at hj ⊢
    rw [hsnap, List.getElem?_map, List.getElem?_enum] at hj
    cases hr : (snapshot env)[j]? with
    | none => simp [hr] at hj
    | some r =>
      simp only [hr, Option.map_some', Option.some.injEq] at hj
      subst hj
      exact flips_after env env2 hc j r
  have hputs2 : puts (checkHandler env2).trace = [] := by
    rw [puts_checkHandler env2 h2, List.map_eq_nil_iff, List.filter_eq_nil_iff]
    intro p hp
    have := hq p hp
    simpa [flips] using this
  have hup := loopUp_of_no_flip env2 (snapshot env2) 0 hq
  have hdown := loopDown_of_no_flip env2 (snapshot env2) 0 hq
  refine ⟨?_, hputs2, ?_, ?_, ?_⟩
  · rw [checkHandler_ok env2 h2, hup, hdown]
  · rw [checkHandler_ok env2 h2, hup, hdown, notifyEvents_of_empty env2 _ rfl rfl]
    simp only [notifyCalls_append, notifyCalls_loopEvents, List.nil_append]
    rfl
  · rw [checkHandler_ok env2 h2]
    exact loopStore_of_no_flip env2 (snapshot env2) 0 env2.services hq
  · intro i
    rw [hputs2, List.append_nil]
    exact List.nodup_iff_count_le_one.1 (nodup_put_indices env h) i

/-- C4 at `threeServices`: the first cycle writes two flips; the cycle that
follows it on the registry it left reports and writes nothing. -/
theorem second_cycle_quiet_witness :
    threeServices.getAllErr = none ∧
    (∀ i, threeServices.putErr i = none) ∧
    (threeServices.services.map Prod.fst).Nodup ∧
    threeServicesAgain.getAllErr = none ∧
    threeServicesAgain.services = (checkHandler threeServices).store ∧
    (∀ i r, healthy threeServicesAgain i r = healthy threeServices i r) ∧
    (puts (checkHandler threeServices).trace).length = 2 ∧
    (checkHandler threeServicesAgain).notification = { Up := [], Down := [] } ∧
    puts (checkHandler threeServicesAgain).trace = [] ∧
    notifyCalls (checkHandler threeServicesAgain).trace = [] :=
  ⟨rfl, fun _ => rfl, by decide, rfl, rfl, fun _ _ => rfl, by decide,
   (second_cycle_quiet threeServices threeServicesAgain rfl (fun _ => rfl) (by decide) rfl rfl
      (fun _ _ => rfl)).1,
   (second_cycle_quiet threeServices threeServicesAgain rfl (fun _ => rfl) (by decide) rfl rfl
      (fun _ _ => rfl)).2.1,
   (second_cycle_quiet threeServices threeServicesAgain rfl (fun _ => rfl) (by decide) rfl rfl
      (fun _ _ => rfl)).2.2.1⟩

/-- C7 as stated fails at `threeServices`: the entry of `Down` has `Up = false`
and the entry of `Up` has `Up = true`, and neither equals a service of the
snapshot. -/
theorem appended_value_not_pre_flip :
    threeServices.getAllErr = none ∧
    ¬ (∀ s ∈ (checkHandler threeServices).notification.Down, s.Up = true) ∧
    ¬ (∀ s ∈ (checkHandler threeServices).notification.Up, s.Up = false) ∧
    (∀ s ∈ (checkHandler threeServices).notification.Down,
      ∀ r ∈ snapshot threeServices, s ≠ r.Service) ∧
    (∀ s ∈ (checkHandler threeServices).notification.Up,
      ∀ r ∈ snapshot threeServices, s ≠ r.Service) := by
  decide

/-- C7, amended: the value appended on a flip is the post-flip value, the one
passed to `datastore.Put`.  Every entry of `Down` has `Up = false`, every entry
of `Up` has `Up = true`, and each entry is an enabled record of the snapshot
with only the flag changed, written by a `Put` of the same cycle. -/
theorem appended_value_post_flip (env : Env) (h : env.getAllErr = none) :
    (∀ s ∈ (checkHandler env).notification.Down,
      s.Up = false ∧
      ∃ r ∈ snapshot env, r.Service.Enabled = true ∧ r.Service.Up = true ∧
        s = { r.Service with Up := false } ∧
        ∃ i, Event.put i r.Key s ∈ (checkHandler env).trace) ∧
    (∀ s ∈ (checkHandler env).notification.Up,
      s.Up = true ∧
      ∃ r ∈ snapshot env, r.Service.Enabled = true ∧ r.Service.Up = false ∧
        s = { r.Service with Up := true } ∧
        ∃ i, Event.put i r.Key s ∈ (checkHandler env).trace) := by
  have hputs := puts_checkHandler env h
  have hmem : ∀ (i : Nat) (r : ServiceRecord), (i, r) ∈ (snapshot env).enum →
      r.Service.Enabled = true → r.Service.Up ≠ healthy env i r →
      Event.put i r.Key { r.Service with Up := healthy env i r } ∈ (checkHandler env).trace := by
    intro i r hir hen hne
    rw [← mem_puts, hputs, List.mem_map]
    refine ⟨(i, r), ?_, rfl⟩
    rw [List.mem_filter]
    exact ⟨hir, by simp [hen, hne]⟩
  have hnote : (checkHandler env).notification =
      { Up := loopUp env 0 (snapshot env), Down := loopDown env 0 (snapshot env) } := by
    rw [checkHandler_ok env h]
  constructor
  · intro s hs
    rw [hnote] at hs
    simp only [loopDown, List.mem_map, List.mem_filter, Bool.and_eq_true,
      Bool.not_eq_true'] at hs
    obtain ⟨⟨i, r⟩, ⟨hir, ⟨hen, hup⟩, hh⟩, rfl⟩ := hs
    simp only at hen hup hh
    refine ⟨rfl, r, List.snd_mem_of_mem_enum hir, hen, hup, rfl, i, ?_⟩
    have := hmem i r hir hen (by rw [hup, hh]; decide)
    rw [hh] at this
    exact this
  · intro s hs
    rw [hnote] at hs
    simp only [loopUp, List.mem_map, List.mem_filter, Bool.and_eq_true,
      Bool.not_eq_true'] at hs
    obtain ⟨⟨i, r⟩, ⟨hir, ⟨hen, hup⟩, hh⟩, rfl⟩ := hs
    simp only at hen hup hh
    refine ⟨rfl, r, List.snd_mem_of_mem_enum hir, hen, hup, rfl, i, ?_⟩
    have := hmem i r hir hen (by rw [hup, hh]; decide)
    rw [hh] at this
    exact this

/-- C7, amended, at `threeServices`. -/
theorem appended_value_post_flip_witness :
    threeServices.getAllErr = none ∧
    (checkHandler threeServices).notification.Down ≠ [] ∧
    (∀ s ∈ (checkHandler threeServices).notification.Down, s.Up = false) ∧
    (∀ s ∈ (checkHandler threeServices).notification.Up, s.Up = true) :=
  ⟨rfl, by decide,
   fun s hs => ((appended_value_post_flip threeServices rfl).1 s hs).1,
   fun s hs => ((appended_value_post_flip threeServices rfl).2 s hs).1⟩

/-- C8: whatever the `datastore.Put` calls return, both handlers perform the
same effects in the same order (the same `Get` calls, the same `Put` attempts,
the same log lines and the same `notify` call) and the cycle of
`whatsupmon.go` ends with the same `Up` and `Down` lists as in the run in which
every write succeeds; only the registry contents can differ. -/
theorem put_failures_isolated (env : Env) :
    (checkHandler env).trace = (checkHandler { env with putErr := fun _ => none }).trace ∧
    gets (checkHandler env).trace =
      gets (checkHandler { env with putErr := fun _ => none }).trace ∧
    puts (checkHandler env).trace =
      puts (checkHandler { env with putErr := fun _ => none }).trace ∧
    (checkHandler env).notification =
      (checkHandler { env with putErr := fun _ => none }).notification ∧
    (ducksmon.checkHandler env).trace =
      (ducksmon.checkHandler { env with putErr := fun _ => none }).trace := by
  have hw := checkHandler_trace_putErr env (fun _ => none)
  have hd := ducksmon.ducks_checkHandler_trace_putErr env (fun _ => none)
  exact ⟨hw.1.symm, by rw [hw.1], by rw [hw.1], hw.2.symm, hd.symm⟩

/-- C9: either handler calls `http.Error` exactly when the listing of the
services fails.  When the listing succeeds, then whatever the fetches, the
body reads, the health strings, the `Put` calls and the notification return,
the handler performs no `http.Error` and runs to its last statement (the
completion log line, or "Done!").  When the listing fails the handler answers
with one internal-server-error response and performs nothing else: no `Get`,
no `Put`, no `notify`, and the registry is untouched. -/
theorem failure_only_on_listing (env : Env) :
    (httpErrors (checkHandler env).trace ≠ [] ↔ env.getAllErr ≠ none) ∧
    (httpErrors (ducksmon.checkHandler env).trace ≠ [] ↔ env.getAllErr ≠ none) ∧
    (env.getAllErr = none →
      httpErrors (checkHandler env).trace = [] ∧
      (checkHandler env).trace.getLast? = some (Event.infof "Completed Checks.") ∧
      httpErrors (ducksmon.checkHandler env).trace = [] ∧
      (ducksmon.checkHandler env).trace.getLast? = some (Event.fprint "Done!")) ∧
    (∀ err, env.getAllErr = some err →
      (checkHandler env).trace = [Event.httpError err StatusInternalServerError] ∧
      gets (checkHandler env).trace = [] ∧
      puts (checkHandler env).trace = [] ∧
      notifyCalls (checkHandler env).trace = [] ∧
      (checkHandler env).store = env.services ∧
      (ducksmon.checkHandler env).trace = [Event.httpError err StatusInternalServerError] ∧
      (ducksmon.checkHandler env).store = env.services) := by
  have hok : env.getAllErr = none →
      httpErrors (checkHandler env).trace = [] ∧
      (checkHandler env).trace.getLast? = some (Event.infof "Completed Checks.") ∧
      httpErrors (ducksmon.checkHandler env).trace = [] ∧
      (ducksmon.checkHandler env).trace.getLast? = some (Event.fprint "Done!") := by
    intro h
    rw [checkHandler_ok env h, ducksmon.ducks_checkHandler_ok env h]
    refine ⟨?_, ?_, ?_, ?_⟩
    · simp only [httpErrors_append, httpErrors_loopEvents, httpErrors_notifyEvents,
        List.nil_append]
      rfl
    · simp only [← List.append_assoc, List.getLast?_append, List.getLast?_singleton]
      rfl
    · simp only [httpErrors_append, ducksmon.httpErrors_map_respond, httpErrors_loopEvents,
        List.nil_append]
      rfl
    · simp only [List.getLast?_append, List.getLast?_singleton]
      rfl
  have herr : ∀ err, env.getAllErr = some err →
      (checkHandler env).trace = [Event.httpError err StatusInternalServerError] ∧
      gets (checkHandler env).trace = [] ∧
      puts (checkHandler env).trace = [] ∧
      notifyCalls (checkHandler env).trace = [] ∧
      (checkHandler env).store = env.services ∧
      (ducksmon.checkHandler env).trace = [Event.httpError err StatusInternalServerError] ∧
      (ducksmon.checkHandler env).store = env.services := by
    intro err h
    rw [checkHandler_error env err h, ducksmon.ducks_checkHandler_error env err h]
    exact ⟨rfl, rfl, rfl, rfl, rfl, rfl, rfl⟩
  refine ⟨?_, ?_, hok, herr⟩
  · rcases Option.eq_none_or_eq_some env.getAllErr with h | ⟨err, h⟩
    · simp [(hok h).1, h]
    · simp [(herr err h).1, h, httpErrors]
  · rcases Option.eq_none_or_eq_some env.getAllErr with h | ⟨err, h⟩
    · simp [(hok h).2.2.1, h]
    · simp [(herr err h).2.2.2.2.2.1, h, httpErrors]

/-- C9 at `putFails` (the listing succeeds, the fetch, the `Put` and nothing
else does) and at `listingFails`. -/
theorem failure_only_on_listing_witness :
    putFails.getAllErr = none ∧
    httpErrors (checkHandler putFails).trace = [] ∧
    (checkHandler putFails).trace.getLast? = some (Event.infof "Completed Checks.") ∧
    listingFails.getAllErr = some "datastore unavailable" ∧
    (checkHandler listingFails).trace =
      [Event.httpError "datastore unavailable" StatusInternalServerError] ∧
    (ducksmon.checkHandler listingFails).trace =
      [Event.httpError "datastore unavailable" StatusInternalServerError] :=
  ⟨rfl, ((failure_only_on_listing putFails).2.2.1 rfl).1,
   ((failure_only_on_listing putFails).2.2.1 rfl).2.1, rfl,
   ((failure_only_on_listing listingFails).2.2.2 "datastore unavailable" rfl).1,
   ((failure_only_on_listing listingFails).2.2.2 "datastore unavailable" rfl).2.2.2.2.2.1⟩

/-- C10 at the failing input `putFails`: the service is recorded up, its check
fails, and the `datastore.Put` of the flip returns an error.  Both handlers
report exactly what they report in `putSucceeds`, where the same `Put`
succeeds: the check error and the completion marker, and no record of the
persist error.  The registry still holds the service as up, while `notify` is
told it went down. -/
theorem persist_error_unreported :
    putFails.putErr 0 = some "datastore timeout" ∧
    putSucceeds.putErr 0 = none ∧
    puts (checkHandler putFails).trace =
      [(0, 7, { Url := "http://y", HealthString := "OK", Up := false, Enabled := true })] ∧
    reported (checkHandler putFails).trace = reported (checkHandler putSucceeds).trace ∧
    reported (checkHandler putFails).trace =
      [Event.infof "Could not access http://y: connection refused",
       Event.infof "Completed Checks."] ∧
    reported (ducksmon.checkHandler putFails).trace =
      reported (ducksmon.checkHandler putSucceeds).trace ∧
    reported (ducksmon.checkHandler putFails).trace =
      [Event.fprint "Could not access http://y: connection refused",
       Event.fprint "Done!"] ∧
    (checkHandler putFails).store =
      [(7, { Url := "http://y", HealthString := "OK", Up := true, Enabled := true })] ∧
    (checkHandler putSucceeds).store =
      [(7, { Url := "http://y", HealthString := "OK", Up := false, Enabled := true })] ∧
    notifyCalls (checkHandler putFails).trace =
      [{ Up := [],
         Down := [{ Url := "http://y", HealthString := "OK", Up := false, Enabled := true }] }] := by
  decide

end whatsupmon
